import Mathlib

/-!
Verification of the container log delivery pipeline against its specification.

The development shallowly embeds the relevant Go source:
* the attribute codec: the encoder stringAttrs and the sort order byKey.Less
  from api/server/httputils/write_log_stream.go, and the decoder
  ParseLogDetails from client/parse_logs.go;
* the multiplexing writer WriteLogStream from the same file;
* the synchronous validation part and the background pump goroutine of
  (*Daemon).ContainerLogs from daemon/logs.go.

Go strings are modelled as lists of bytes (List Nat), so that lexicographic
byte order, query-escaping and query-unescaping are exact.
-/

deriving instance DecidableEq for Except

/-- Go strings are byte sequences; we model them as lists of naturals. -/
abbrev Str := List Nat

/-- Bytes of an ASCII Lean string literal (used for concrete test inputs). -/
def asciiBytes (s : String) : Str := s.data.map Char.toNat

/-! Section: strings helpers: Split, SplitN(.,.,2), Join for a one-byte separator -/

/-- Model of Go strings.Split(s, sep) for a single-byte separator b.
Go returns the (nonempty) list of segments between occurrences of b;
Split("", sep) is [""]. -/
def splitByte (b : Nat) : Str → List Str
  | [] => [[]]
  | c :: rest =>
    let r := splitByte b rest
    if c = b then [] :: r
    else (c :: r.headD []) :: r.tail

/-- Model of Go strings.SplitN(s, sep, 2) for a single-byte separator b:
split at the first occurrence of b only. -/
def splitN2 (b : Nat) : Str → List Str
  | [] => [[]]
  | c :: rest =>
    if c = b then [[], rest]
    else
      let r := splitN2 b rest
      (c :: r.headD []) :: r.tail

/-- Model of Go strings.Join(parts, ",") (byte 44 is the comma). -/
def intercalateComma : List Str → Str
  | [] => []
  | [s] => s
  | s :: rest => s ++ 44 :: intercalateComma rest

/-! Section: the encoder: stringAttrs and byKey.Less -/

/-- The Go loop body `ss = append(ss, k+"="+v)`: byte 61 is the equals sign. -/
def joinPair (p : Str × Str) : Str := p.1 ++ 61 :: p.2

/-- Lexicographic byte order, the order the Go `<` operator uses on strings. -/
def byteLt : Str → Str → Bool
  | [], [] => false
  | [], _ :: _ => true
  | _ :: _, [] => false
  | a :: as, b :: bs => if a < b then true else if b < a then false else byteLt as bs

/-- byKey.Less compares `strings.Split(s[i], "=")[0]`, i.e. the segment of the
joined pair before its first equals byte. -/
def keyPart (s : Str) : Str := (splitByte 61 s).headD []

/-- byKey.Less from write_log_stream.go. -/
def byKeyLess (a b : Str) : Bool := byteLt (keyPart a) (keyPart b)

/-- Insert into a list sorted by byKeyLess (one comparison sort implementing
the postcondition of the Go sort.Sort call with the byKey order). -/
def insertPair (x : Str) : List Str → List Str
  | [] => [x]
  | y :: ys => if byKeyLess y x then y :: insertPair x ys else x :: y :: ys

/-- Sorting wrt byKey.Less, modelling `sort.Sort(ss)`. -/
def sortPairs : List Str → List Str
  | [] => []
  | x :: xs => insertPair x (sortPairs xs)

/-- stringAttrs from write_log_stream.go: join each key/value pair with the
equals byte, sort with byKeyLess, join the pairs with the comma byte. The map iteration order of the
Go `range` is irrelevant after sorting; the input is an association list.
Note: the source applies no escaping of any kind. -/
def stringAttrs (a : List (Str × Str)) : Str :=
  intercalateComma (sortPairs (a.map joinPair))

/-! Section: query escaping and unescaping (net/url, query component mode) -/

/-- Bytes the Go url.QueryEscape leaves unescaped: ALPHA, DIGIT, minus,
underscore, dot and tilde. -/
def isUnreserved (c : Nat) : Bool :=
  (65 ≤ c && c ≤ 90) || (97 ≤ c && c ≤ 122) || (48 ≤ c && c ≤ 57) ||
  c = 45 || c = 95 || c = 46 || c = 126

/-- Upper-case hex digit byte for a value below 16. -/
def upperHex (n : Nat) : Nat := if n < 10 then 48 + n else 55 + n

/-- Model of Go url.QueryEscape on bytes: space becomes the plus byte, unreserved bytes
pass through, every other byte becomes a percent-escape. -/
def queryEscape (s : Str) : Str :=
  (s.map fun c =>
    if isUnreserved c then [c]
    else if c = 32 then [43]
    else [37, upperHex (c / 16), upperHex (c % 16)]).flatten

/-- Errors of the decoder: the explicit "invalid details format" error of
ParseLogDetails, and a propagated url.EscapeError from QueryUnescape. -/
inductive DetailsError
  | invalidFormat
  | invalidEscape
deriving DecidableEq

/-- is-hex-digit test of net/url (ishex). -/
def ishex (c : Nat) : Bool :=
  (48 ≤ c && c ≤ 57) || (97 ≤ c && c ≤ 102) || (65 ≤ c && c ≤ 70)

/-- hex digit value of net/url (unhex). -/
def unhex (c : Nat) : Nat :=
  if 48 ≤ c && c ≤ 57 then c - 48
  else if 97 ≤ c && c ≤ 102 then c - 87
  else if 65 ≤ c && c ≤ 70 then c - 55
  else 0

/-- Model of Go url.QueryUnescape on bytes: a percent byte must be followed by two
hex digits (else url.EscapeError), a plus byte decodes to a space, everything
else passes
through. -/
def queryUnescape : Str → Except DetailsError Str
  | [] => .ok []
  | c :: rest =>
    if c = 37 then
      match rest with
      | a :: b :: rest2 =>
        if ishex a && ishex b then
          (queryUnescape rest2).map (fun t => (16 * unhex a + unhex b) :: t)
        else .error .invalidEscape
      | _ => .error .invalidEscape
    else if c = 43 then (queryUnescape rest).map (fun t => 32 :: t)
    else (queryUnescape rest).map (fun t => c :: t)

/-! Section: the decoder: ParseLogDetails -/

/-- Go map assignment `detailsMap[k] = v`: replace the binding if the key is
present, append it otherwise (last occurrence wins). -/
def upsert (m : List (Str × Str)) (k v : Str) : List (Str × Str) :=
  if m.any (fun kv => kv.1 == k) then
    m.map (fun kv => if kv.1 == k then (k, v) else kv)
  else m ++ [(k, v)]

/-- The loop of ParseLogDetails over the comma-separated segments: each
segment must split into exactly two parts at its first equals byte (else the
"invalid details format" error), both parts are query-unescaped with failures
propagated, and the pair is stored in the map. -/
def parseLoop : List Str → List (Str × Str) → Except DetailsError (List (Str × Str))
  | [], acc => .ok acc
  | seg :: rest, acc =>
    match splitN2 61 seg with
    | [k0, v0] =>
      match queryUnescape k0 with
      | .error e => .error e
      | .ok k =>
        match queryUnescape v0 with
        | .error e => .error e
        | .ok v => parseLoop rest (upsert acc k v)
    | _ => .error .invalidFormat

/-- ParseLogDetails from client/parse_logs.go: split the input on the comma byte and run
the segment loop starting from the empty map. -/
def parseLogDetails (s : Str) : Except DetailsError (List (Str × Str)) :=
  parseLoop (splitByte 44 s) []

/-! Section: the encoder the specification describes (for comparison with the source) -/

/-- Insertion into a pair list sorted by raw key in byte order. -/
def insertByRawKey (x : Str × Str) : List (Str × Str) → List (Str × Str)
  | [] => [x]
  | y :: ys => if byteLt y.1 x.1 then y :: insertByRawKey x ys else x :: y :: ys

/-- Sort an association list by raw key in ascending byte order. -/
def sortByRawKey : List (Str × Str) → List (Str × Str)
  | [] => []
  | x :: xs => insertByRawKey x (sortByRawKey xs)

/-- The attribute encoding as the specification words it (spec 4.1): each key
and value query-escaped independently, joined as key=value, pairs sorted by
raw key in ascending byte order, joined with commas. Written from the spec text,
to be compared with stringAttrs, which is written from the source. -/
def stringAttrsSpec (a : List (Str × Str)) : Str :=
  intercalateComma
    ((sortByRawKey a).map fun kv => queryEscape kv.1 ++ 61 :: queryEscape kv.2)

/-! Section: data model: log messages and the session configuration -/

/-- backend.LogMessage as the pipeline uses it: the source stream name, the
raw payload, the rendered timestamp (time.Time formatting is external Go
library code; the field holds the bytes msg.Timestamp.Format produces), the
attribute map, and the optional terminal error (msg.Err) carrying the bytes
of its rendering. -/
structure LogMessage where
  source : Str
  line : Str
  timestamp : Str
  attrs : List (Str × Str)
  err : Option Str
deriving DecidableEq

/-- backend.ContainerLogsConfig: the per-session request surface consumed by
both ContainerLogs and WriteLogStream, plus whether the caller-provided
Messages channel is nil. -/
structure LogsConfig where
  messagesNil : Bool
  showStdout : Bool
  showStderr : Bool
  follow : Bool
  tail : Str
  since : Str
  timestamps : Bool
  details : Bool
deriving DecidableEq

/-! Section: the multiplexing writer: WriteLogStream -/

/-- The three output lanes of WriteLogStream: outStream, errStream and
sysErrStream (when mux is on these are the three stdcopy stream tags). -/
inductive Lane
  | stdout
  | stderr
  | syserr
deriving DecidableEq

/-- The line WriteLogStream prints for a terminal error:
fmt.Fprintf(sysErrStream, "Error grabbing logs: %v\n", msg.Err). -/
def errLine (e : Str) : Str := asciiBytes ("Error grabbing logs: ") ++ e ++ [10]

/-- The logLine construction of WriteLogStream for a normal message: when
Details is set, prepend the attribute encoding and a space; afterwards, when
Timestamps is set, prepend the rendered timestamp and a space. -/
def formatLine (cfg : LogsConfig) (m : LogMessage) : Str :=
  let l1 := if cfg.details then (stringAttrs m.attrs ++ [32]) ++ m.line else m.line
  if cfg.timestamps then (m.timestamp ++ [32]) ++ l1 else l1

/-- The two guarded lane writes at the bottom of the WriteLogStream loop:
write to the stdout lane when the source is "stdout" and stdout is shown,
then to the stderr lane when the source is "stderr" and stderr is shown. -/
def routeWrites (cfg : LogsConfig) (m : LogMessage) : List (Lane × Str) :=
  (if m.source == asciiBytes ("stdout") && cfg.showStdout then
    [(Lane.stdout, formatLine cfg m)] else []) ++
  (if m.source == asciiBytes ("stderr") && cfg.showStderr then
    [(Lane.stderr, formatLine cfg m)] else [])

/-- The WriteLogStream consumer loop over the sequence of messages delivered
on config.Messages (an execution in which the context is not cancelled; the
list ends where the channel is closed). A terminal-error message produces one
system-error line and stops the loop; a normal message produces its lane
writes and the loop continues. -/
def writeLogStream (cfg : LogsConfig) : List LogMessage → List (Lane × Str)
  | [] => []
  | m :: rest =>
    match m.err with
    | some e => [(Lane.syserr, errLine e)]
    | none => routeWrites cfg m ++ writeLogStream cfg rest

/-- Whether the stream of a message is requested by the session configuration
(the condition under which WriteLogStream writes it to some lane). -/
def streamRequested (cfg : LogsConfig) (m : LogMessage) : Bool :=
  (m.source == asciiBytes ("stdout") && cfg.showStdout) ||
  (m.source == asciiBytes ("stderr") && cfg.showStderr)

/-! Section: the stream pump: the ContainerLogs background goroutine -/

/-- One event the select of the pump goroutine observes from the log source:
a message on logs.Msg, or a read failure on logs.Err. -/
inductive SourceEvent
  | msg (m : LogMessage)
  | err (e : Str)

/-- The pump goroutine loop of ContainerLogs (an execution in which the
context is not cancelled): the event list ends where logs.Msg is closed. The
result is the sequence of messages sent on config.Messages. A source error is
wrapped as a LogMessage carrying only the Err field and ends the stream; a
data message is forwarded unchanged. The source contains no filtering or
annotation in this loop. -/
def pumpLoop : List SourceEvent → List LogMessage
  | [] => []
  | .err e :: _ =>
    [{ source := [], line := [], timestamp := [], attrs := [], err := some e }]
  | .msg m :: rest => m :: pumpLoop rest

/-! Section: the synchronous part of ContainerLogs -/

/-- The container-side facts the validation chain of ContainerLogs consults.
GetContainer, the removal/dead flags, the log driver configuration, the
logger acquisition and the LogReader cast, and the outcome of the external
timestamp parser for the since value of the request, are modelled as oracle
fields. -/
structure ContainerEnv where
  found : Bool
  removalInProgress : Bool
  dead : Bool
  logTypeNone : Bool
  running : Bool
  cachedDriver : Bool
  startLoggerOk : Bool
  supportsRead : Bool
  sinceParseOk : Bool
deriving DecidableEq

/-- daemon.getLogger: the cached container.LogDriver is used when present and
the container is running; otherwise StartLogger is attempted. -/
def getLoggerOk (env : ContainerEnv) : Bool :=
  (env.cachedDriver && env.running) || env.startLoggerOk

/-- Model of Go strconv.Atoi (base 10, 64-bit int): optional sign, a
nonempty run of digits, and a range check; any other input is an error. -/
def atoi (s : Str) : Option Int :=
  let signed : Int × List Nat :=
    match s with
    | 43 :: ds => (1, ds)
    | 45 :: ds => (-1, ds)
    | ds => (1, ds)
  match signed.2 with
  | [] => none
  | _ :: _ =>
    match atoiDigits signed.2 0 with
    | none => none
    | some n =>
      let v : Int := signed.1 * n
      if -(2 ^ 63) ≤ v ∧ v ≤ 2 ^ 63 - 1 then some v else none
where
  atoiDigits : List Nat → Nat → Option Nat
    | [], acc => some acc
    | d :: ds, acc =>
      if 48 ≤ d && d ≤ 57 then atoiDigits ds (acc * 10 + (d - 48)) else none

/-- The tail handling of ContainerLogs: strconv.Atoi(config.Tail), and -1
(the read-everything sentinel of logger.ReadConfig) when Atoi errors. -/
def tailLinesOf (t : Str) : Int :=
  match atoi t with
  | some n => n
  | none => -1

/-- logger.ReadConfig as ContainerLogs builds it: whether a since bound was
given (the parsed time itself comes from the external timestamp parser), the
tail line count, and the effective follow flag. -/
structure ReadConfig where
  sinceSet : Bool
  tail : Int
  follow : Bool
deriving DecidableEq

/-- Observable outcome of the synchronous part of ContainerLogs: whether an
error was returned, whether the deferred cleanup panicked (close of a nil
channel), whether it closed the Messages channel, whether the background
goroutine was started, how many messages the synchronous part sent (always
zero in the source), and the ReadConfig handed to ReadLogs. -/
structure SyncResult where
  errored : Bool
  panicked : Bool
  channelClosed : Bool
  goroutineStarted : Bool
  messagesSent : Nat
  readConfig : Option ReadConfig
deriving DecidableEq

/-- The result of every error return of ContainerLogs with a non-nil
Messages channel: the deferred cleanup closes the channel once. -/
def errClose : SyncResult :=
  { errored := true, panicked := false, channelClosed := true,
    goroutineStarted := false, messagesSent := 0, readConfig := none }

/-- The synchronous part of (*Daemon).ContainerLogs, in source order: the
deferred close-on-error is registered first, then the nil-channel guard (on
this path the deferred close operates on a nil channel, which panics in Go),
then the stream-selection check, container lookup, removal/dead check, log
driver type check, logger acquisition, the LogReader cast, tail parsing
(never an error), and since parsing (its failure is an error). Past
validation the goroutine is started and nil is returned. -/
def containerLogs (cfg : LogsConfig) (env : ContainerEnv) : SyncResult :=
  if cfg.messagesNil then
    { errored := true, panicked := true, channelClosed := false,
      goroutineStarted := false, messagesSent := 0, readConfig := none }
  else if !(cfg.showStdout || cfg.showStderr) then errClose
  else if !env.found then errClose
  else if env.removalInProgress || env.dead then errClose
  else if env.logTypeNone then errClose
  else if !getLoggerOk env then errClose
  else if !env.supportsRead then errClose
  else if !cfg.since.isEmpty && !env.sinceParseOk then errClose
  else
    { errored := false, panicked := false, channelClosed := false,
      goroutineStarted := true, messagesSent := 0,
      readConfig := some { sinceSet := !cfg.since.isEmpty,
                           tail := tailLinesOf cfg.tail,
                           follow := cfg.follow && env.running } }

/-! Section: segment helpers used to state the decode of one encoded pair -/

/-- The first part a segment splits into at its first equals byte. -/
def segKey (s : Str) : Str := (splitN2 61 s).headD []

/-- The second part a segment splits into at its first equals byte. -/
def segVal (s : Str) : Str := (splitN2 61 s).tail.headD []

/-- The key/value pair a well-formed segment decodes to when neither part
contains a percent or plus byte (so unescaping is the identity). -/
def parseSeg (s : Str) : Str × Str := (segKey s, segVal s)

/-- Whether the round trip of the codec reproduces the mapping: decode the
encoding and compare the resulting association list for equality of bindings
(both directions), ignoring order. -/
def roundTrips (m : List (Str × Str)) : Bool :=
  match parseLogDetails (stringAttrs m) with
  | .error _ => false
  | .ok l => (m ++ l).all fun kv => (l.lookup kv.1 == m.lookup kv.1)

/-! Section: concrete fixtures for witnesses and counterexamples -/

/-- A session requesting only stdout, no annotation, non-nil channel. -/
def cfgStdoutOnly : LogsConfig :=
  { messagesNil := false, showStdout := true, showStderr := false, follow := false,
    tail := [], since := [], timestamps := false, details := false }

/-- The stdout-only session with details and timestamps switched on. -/
def cfgAnnotated : LogsConfig :=
  { cfgStdoutOnly with timestamps := true, details := true }

/-- A request selecting neither stream (the validation failure of the claims). -/
def cfgNoStreams : LogsConfig := { cfgStdoutOnly with showStdout := false }

/-- A request whose Messages channel is nil. -/
def cfgNilChan : LogsConfig := { cfgStdoutOnly with messagesNil := true }

/-- A container environment in which every validation step succeeds. -/
def envReady : ContainerEnv :=
  { found := true, removalInProgress := false, dead := false, logTypeNone := false,
    running := true, cachedDriver := true, startLoggerOk := true,
    supportsRead := true, sinceParseOk := true }

/-- A normal stdout message with a timestamp and one attribute. -/
def msgStdoutHi : LogMessage :=
  { source := asciiBytes ("stdout"), line := asciiBytes ("hi"),
    timestamp := asciiBytes ("TS"), attrs := [(asciiBytes ("k"), asciiBytes ("v"))],
    err := none }

/-- A normal stderr message. -/
def msgStderrX : LogMessage :=
  { source := asciiBytes ("stderr"), line := asciiBytes ("x"), timestamp := [],
    attrs := [], err := none }

/-- A terminal-error message as the pump emits it. -/
def msgErrBoom : LogMessage :=
  { source := [], line := [], timestamp := [], attrs := [],
    err := some (asciiBytes ("boom")) }

/-! Section: helper lemmas about the codec primitives -/

theorem splitByte_ne_nil (b : Nat) (s : Str) : splitByte b s ≠ [] := by
  cases s with
  | nil => simp [splitByte]
  | cons c rest => simp only [splitByte]; split <;> simp

theorem splitByte_of_not_mem {b : Nat} {s : Str} (h : b ∉ s) : splitByte b s = [s] := by
  induction s with
  | nil => rfl
  | cons c rest ih =>
    have hc : c ≠ b := fun e => h (by simp [e])
    have hr : b ∉ rest := fun e => h (List.mem_cons_of_mem _ e)
    simp [splitByte, hc, ih hr]

theorem splitByte_append_cons {b : Nat} {p : Str} (rest : Str) (h : b ∉ p) :
    splitByte b (p ++ b :: rest) = p :: splitByte b rest := by
  induction p with
  | nil => simp [splitByte]
  | cons c q ih =>
    have hc : c ≠ b := fun e => h (by simp [e])
    have hq : b ∉ q := fun e => h (List.mem_cons_of_mem _ e)
    simp [splitByte, hc, ih hq]

theorem splitByte_intercalateComma {parts : List Str} (hne : parts ≠ [])
    (h : ∀ p ∈ parts, (44 : Nat) ∉ p) :
    splitByte 44 (intercalateComma parts) = parts := by
  induction parts with
  | nil => exact absurd rfl hne
  | cons p rest ih =>
    cases rest with
    | nil => simpa [intercalateComma] using splitByte_of_not_mem (h p (by simp))
    | cons q rest2 =>
      have hp : (44 : Nat) ∉ p := h p (by simp)
      rw [show intercalateComma (p :: q :: rest2) = p ++ 44 :: intercalateComma (q :: rest2)
            from rfl,
          splitByte_append_cons _ hp,
          ih (by simp) (fun x hx => h x (List.mem_cons_of_mem _ hx))]

theorem queryUnescape_cons_plain (c : Nat) (rest : Str) (h37 : c ≠ 37) (h43 : c ≠ 43) :
    queryUnescape (c :: rest) = (queryUnescape rest).map (fun t => c :: t) := by
  rw [queryUnescape.eq_def]
  simp [h37, h43]

theorem queryUnescape_of_clean {s : Str} (h37 : (37 : Nat) ∉ s) (h43 : (43 : Nat) ∉ s) :
    queryUnescape s = .ok s := by
  induction s with
  | nil => rfl
  | cons c rest ih =>
    have hc37 : c ≠ 37 := fun e => h37 (by simp [e])
    have hc43 : c ≠ 43 := fun e => h43 (by simp [e])
    have ih' := ih (fun e => h37 (List.mem_cons_of_mem _ e))
      (fun e => h43 (List.mem_cons_of_mem _ e))
    rw [queryUnescape_cons_plain c rest hc37 hc43, ih']
    rfl

theorem splitN2_joinPair {k : Str} (v : Str) (h : (61 : Nat) ∉ k) :
    splitN2 61 (k ++ 61 :: v) = [k, v] := by
  induction k with
  | nil => simp [splitN2]
  | cons c q ih =>
    have hc : c ≠ 61 := fun e => h (by simp [e])
    have hq : (61 : Nat) ∉ q := fun e => h (List.mem_cons_of_mem _ e)
    simp [splitN2, hc, ih hq]

theorem insertPair_perm (x : Str) (l : List Str) : (insertPair x l).Perm (x :: l) := by
  induction l with
  | nil => exact List.Perm.refl _
  | cons y ys ih =>
    by_cases h : byKeyLess y x
    · simpa [insertPair, h] using (ih.cons y).trans (List.Perm.swap x y ys)
    · simp [insertPair, h]

theorem sortPairs_perm (l : List Str) : (sortPairs l).Perm l := by
  induction l with
  | nil => exact List.Perm.refl _
  | cons x xs ih => exact (insertPair_perm x (sortPairs xs)).trans (ih.cons x)

theorem upsert_of_not_mem {m : List (Str × Str)} {k : Str} (v : Str)
    (h : k ∉ m.map Prod.fst) : upsert m k v = m ++ [(k, v)] := by
  have hany : m.any (fun kv => kv.1 == k) = false := by
    rw [List.any_eq_false]
    intro kv hkv
    simp only [beq_iff_eq]
    intro e
    exact h (List.mem_map.mpr ⟨kv, hkv, e⟩)
  simp [upsert, hany]

theorem parseLoop_clean (segs : List Str) :
    ∀ acc : List (Str × Str),
      (∀ s ∈ segs, splitN2 61 s = [segKey s, segVal s] ∧
        (37 : Nat) ∉ segKey s ∧ (43 : Nat) ∉ segKey s ∧
        (37 : Nat) ∉ segVal s ∧ (43 : Nat) ∉ segVal s) →
      (acc.map Prod.fst ++ segs.map segKey).Nodup →
      parseLoop segs acc = .ok (acc ++ segs.map parseSeg) := by
  induction segs with
  | nil => intro acc _ _; simp [parseLoop]
  | cons seg rest ih =>
    intro acc hgood hnd
    obtain ⟨hsplit, hk37, hk43, hv37, hv43⟩ := hgood seg (by simp)
    have hkey : segKey seg ∉ acc.map Prod.fst := by
      intro hmem
      exact (List.nodup_append.mp hnd).2.2 hmem (by simp)
    have hstep : parseLoop (seg :: rest) acc =
        parseLoop rest (upsert acc (segKey seg) (segVal seg)) := by
      simp [parseLoop, hsplit, queryUnescape_of_clean hk37 hk43,
        queryUnescape_of_clean hv37 hv43]
    have hnd' : ((acc ++ [(segKey seg, segVal seg)]).map Prod.fst
        ++ rest.map segKey).Nodup := by
      simpa using hnd
    rw [hstep, upsert_of_not_mem _ hkey,
      ih _ (fun s hs => hgood s (List.mem_cons_of_mem _ hs)) hnd']
    simp [parseSeg]

/-! Section: claims about the attribute codec -/

/-- Claim C1: the claim says stringAttrs percent/query-escapes each key and
value independently before joining and sorting. The source does not escape at
all: on the mapping with the single pair ("a b", "c") it emits the raw bytes
of "a b=c", while the encoding the specification describes (and the one
the documentation of ParseLogDetails expects) emits "a+b=c". -/
theorem stringAttrs_applies_no_escaping :
    stringAttrs [(asciiBytes ("a b"), asciiBytes ("c"))] = asciiBytes ("a b=c") ∧
    stringAttrsSpec [(asciiBytes ("a b"), asciiBytes ("c"))] = asciiBytes ("a+b=c") ∧
    stringAttrs [(asciiBytes ("a b"), asciiBytes ("c"))] ≠
      stringAttrsSpec [(asciiBytes ("a b"), asciiBytes ("c"))] := by decide

/-- Claim C2, counterexample: the key "a" and the value "b+c" contain no
unescapable byte sequence (both query-unescape without error), yet decoding
the encoding of the mapping a maps-to b+c does not reproduce the mapping:
because stringAttrs never escapes, the plus byte decodes to a space on the way
back. -/
theorem roundTrip_fails_without_escaping :
    queryUnescape (asciiBytes ("a")) = .ok (asciiBytes ("a")) ∧
    queryUnescape (asciiBytes ("b+c")) = .ok (asciiBytes ("b c")) ∧
    parseLogDetails (stringAttrs [(asciiBytes ("a"), asciiBytes ("b+c"))]) =
      .ok [(asciiBytes ("a"), asciiBytes ("b c"))] ∧
    roundTrips [(asciiBytes ("a"), asciiBytes ("b+c"))] = false := by decide

/-- Claim C2 (amended): for every nonempty attribute mapping with pairwise
distinct keys whose keys contain no equals, comma, percent or plus byte and
whose values contain no comma, percent or plus byte (the bytes the escaping
would have protected), ParseLogDetails applied to stringAttrs yields a
mapping that is a permutation of — hence set-equal to — the input. -/
theorem parse_stringAttrs_roundTrip (m : List (Str × Str))
    (hne : m ≠ [])
    (hnd : (m.map Prod.fst).Nodup)
    (hcl : ∀ p ∈ m, (61 : Nat) ∉ p.1 ∧ (44 : Nat) ∉ p.1 ∧ (37 : Nat) ∉ p.1 ∧
      (43 : Nat) ∉ p.1 ∧ (44 : Nat) ∉ p.2 ∧ (37 : Nat) ∉ p.2 ∧ (43 : Nat) ∉ p.2) :
    ∃ l, parseLogDetails (stringAttrs m) = .ok l ∧ l.Perm m := by
  have hperm : (sortPairs (m.map joinPair)).Perm (m.map joinPair) := sortPairs_perm _
  have hmem : ∀ s ∈ sortPairs (m.map joinPair), ∃ p ∈ m, s = joinPair p := by
    intro s hs
    obtain ⟨p, hp, he⟩ := List.mem_map.mp (hperm.mem_iff.mp hs)
    exact ⟨p, hp, he.symm⟩
  have h44 : ∀ s ∈ sortPairs (m.map joinPair), (44 : Nat) ∉ s := by
    intro s hs
    obtain ⟨p, hp, rfl⟩ := hmem s hs
    obtain ⟨_, hk44, _, _, hv44, _, _⟩ := hcl p hp
    intro habs
    have : (44 : Nat) ∈ p.1 ∨ (44 : Nat) = 61 ∨ (44 : Nat) ∈ p.2 := by
      simpa [joinPair] using habs
    rcases this with h | h | h
    · exact hk44 h
    · simp at h
    · exact hv44 h
  have hgood : ∀ s ∈ sortPairs (m.map joinPair),
      splitN2 61 s = [segKey s, segVal s] ∧ (37 : Nat) ∉ segKey s ∧
      (43 : Nat) ∉ segKey s ∧ (37 : Nat) ∉ segVal s ∧ (43 : Nat) ∉ segVal s := by
    intro s hs
    obtain ⟨p, hp, rfl⟩ := hmem s hs
    obtain ⟨hk61, _, hk37, hk43, _, hv37, hv43⟩ := hcl p hp
    have hsplit : splitN2 61 (joinPair p) = [p.1, p.2] := splitN2_joinPair p.2 hk61
    have hkey : segKey (joinPair p) = p.1 := by unfold segKey; rw [hsplit]; rfl
    have hval : segVal (joinPair p) = p.2 := by unfold segVal; rw [hsplit]; rfl
    rw [hkey, hval]
    exact ⟨hsplit, hk37, hk43, hv37, hv43⟩
  have hkeysEq : (m.map joinPair).map segKey = m.map Prod.fst := by
    rw [List.map_map]
    refine List.map_congr_left (fun p hp => ?_)
    obtain ⟨hk61, _⟩ := hcl p hp
    have hsplit : splitN2 61 (joinPair p) = [p.1, p.2] := splitN2_joinPair p.2 hk61
    show segKey (joinPair p) = p.1
    unfold segKey
    rw [hsplit]
    rfl
  have hkeysPerm : ((sortPairs (m.map joinPair)).map segKey).Perm (m.map Prod.fst) := by
    have h1 := hperm.map segKey
    rwa [hkeysEq] at h1
  have hparse := parseLoop_clean (sortPairs (m.map joinPair)) [] hgood
    (by simpa using hkeysPerm.nodup_iff.mpr hnd)
  have hnonempty : sortPairs (m.map joinPair) ≠ [] := by
    intro h0
    have hlen := hperm.length_eq
    rw [h0] at hlen
    have h1 : m.map joinPair = [] := List.eq_nil_of_length_eq_zero hlen.symm
    simp at h1
    exact hne h1
  have hsplitAll : splitByte 44 (stringAttrs m) = sortPairs (m.map joinPair) :=
    splitByte_intercalateComma hnonempty h44
  refine ⟨(sortPairs (m.map joinPair)).map parseSeg, ?_, ?_⟩
  · rw [parseLogDetails, hsplitAll]
    simpa using hparse
  · have h1 := hperm.map parseSeg
    have h2 : (m.map joinPair).map parseSeg = m := by
      rw [List.map_map]
      have h3 : ∀ p ∈ m, (parseSeg ∘ joinPair) p = id p := by
        intro p hp
        obtain ⟨hk61, _⟩ := hcl p hp
        have hsplit : splitN2 61 (joinPair p) = [p.1, p.2] := splitN2_joinPair p.2 hk61
        show parseSeg (joinPair p) = p
        unfold parseSeg segKey segVal
        rw [hsplit]
        rfl
      rw [List.map_congr_left h3, List.map_id]
    rwa [h2] at h1

/-- Witness for the amended round-trip law at the one-pair mapping k maps-to v. -/
theorem parse_stringAttrs_roundTrip_witness :
    [(asciiBytes ("k"), asciiBytes ("v"))] ≠ ([] : List (Str × Str)) ∧
    ∃ l, parseLogDetails (stringAttrs [(asciiBytes ("k"), asciiBytes ("v"))]) = .ok l ∧
      l.Perm [(asciiBytes ("k"), asciiBytes ("v"))] :=
  ⟨by decide, parse_stringAttrs_roundTrip _ (by decide) (by decide) (by decide)⟩

/-- Claim C6: decoding splits on commas, splits each segment at its first
equals byte into at most two parts, a segment without an equals byte is the
malformed-format error
(in particular on "a=1,b"); an invalid percent-escape is propagated as an
error; unsorted input decodes fine and a duplicate key keeps its last value;
an escaped equals byte inside a key is not a separator. -/
theorem parseLogDetails_decode_behaviour :
    parseLogDetails (asciiBytes ("a=1,b")) = .error .invalidFormat ∧
    parseLogDetails (asciiBytes ("a=%zz")) = .error .invalidEscape ∧
    parseLogDetails (asciiBytes ("b=2,a=1")) =
      .ok [(asciiBytes ("b"), asciiBytes ("2")), (asciiBytes ("a"), asciiBytes ("1"))] ∧
    parseLogDetails (asciiBytes ("a=1,a=2")) = .ok [(asciiBytes ("a"), asciiBytes ("2"))] ∧
    parseLogDetails (asciiBytes ("a%3Db=1")) = .ok [(asciiBytes ("a=b"), asciiBytes ("1"))] ∧
    ∀ s : Str, (splitN2 61 s).length = 1 ∨ (splitN2 61 s).length = 2 := by
  refine ⟨by decide, by decide, by decide, by decide, by decide, ?_⟩
  intro s
  induction s with
  | nil => simp [splitN2]
  | cons c rest ih =>
    by_cases h : c = 61
    · simp [splitN2, h]
    · rcases ih with h1 | h1
      · left; simp [splitN2, h, List.length_tail, h1]
      · right; simp [splitN2, h, List.length_tail, h1]

/-- Claim C10: ParseLogDetails rejects the empty string with the
malformed-format error, stringAttrs renders the empty mapping as the empty
string, so the encoding of the empty mapping does not decode back to the
empty mapping. -/
theorem parse_empty_details_errors :
    parseLogDetails (asciiBytes ("")) = .error .invalidFormat ∧
    stringAttrs [] = asciiBytes ("") ∧
    parseLogDetails (stringAttrs []) = .error .invalidFormat := by decide

/-! Section: claims about the pump, the validation chain and the writer -/

/-- Claim C3, counterexample: with only stdout requested, the pump forwards a
stderr message downstream unchanged — the ContainerLogs goroutine contains no
display filtering, so a message whose stream is not requested does reach the
writer. -/
theorem pump_forwards_unrequested_stream :
    streamRequested cfgStdoutOnly msgStderrX = false ∧
    pumpLoop [SourceEvent.msg msgStderrX] = [msgStderrX] ∧
    (pumpLoop [SourceEvent.msg msgStderrX]).all
      (fun m => streamRequested cfgStdoutOnly m) = false := by decide

/-- Claim C3 (amended): the pump forwards every data message unchanged,
without stream filtering; display filtering happens in the writer, whose lane
routing writes nothing for a message whose stream is not requested, so lane
selection silently drops such a message instead of failing. -/
theorem pump_no_filter_writer_drops (cfg : LogsConfig) (ms : List LogMessage)
    (m : LogMessage) (h : streamRequested cfg m = false) :
    pumpLoop (ms.map SourceEvent.msg) = ms ∧ routeWrites cfg m = [] := by
  constructor
  · induction ms with
    | nil => rfl
    | cons a as ih => simp [pumpLoop, ih]
  · unfold streamRequested at h
    have h2 := Bool.or_eq_false_iff.mp h
    simp [routeWrites, h2.1, h2.2]

/-- Witness: the stderr message is forwarded by the pump and dropped by the
writer when only stdout is requested. -/
theorem pump_no_filter_writer_drops_witness :
    streamRequested cfgStdoutOnly msgStderrX = false ∧
    (pumpLoop ([msgStderrX].map SourceEvent.msg) = [msgStderrX] ∧
      routeWrites cfgStdoutOnly msgStderrX = []) :=
  ⟨by decide,
    pump_no_filter_writer_drops cfgStdoutOnly [msgStderrX] msgStderrX (by decide)⟩

/-- Claim C4, counterexample: on the request selecting neither stream the
validation fails and the error is returned synchronously with no goroutine
and no message sent, but the deferred cleanup does close the caller-provided
Messages channel — a channel side effect the claim rules out. -/
theorem validation_failure_closes_channel :
    (containerLogs cfgNoStreams envReady).errored = true ∧
    (containerLogs cfgNoStreams envReady).goroutineStarted = false ∧
    (containerLogs cfgNoStreams envReady).messagesSent = 0 ∧
    (containerLogs cfgNoStreams envReady).channelClosed = true := by decide

/-- Claim C4 (amended): on every request with a non-nil Messages channel on
which ContainerLogs returns an error, the error is synchronous — no
background goroutine starts and nothing is sent on the channel — and the
deferred cleanup closes the caller-provided Messages channel exactly once,
without panicking. -/
theorem containerLogs_error_sync (cfg : LogsConfig) (env : ContainerEnv)
    (hnil : cfg.messagesNil = false)
    (herr : (containerLogs cfg env).errored = true) :
    (containerLogs cfg env).goroutineStarted = false ∧
    (containerLogs cfg env).messagesSent = 0 ∧
    (containerLogs cfg env).channelClosed = true ∧
    (containerLogs cfg env).panicked = false := by
  have h : containerLogs cfg env = errClose := by
    unfold containerLogs at herr ⊢
    rw [hnil] at herr ⊢
    simp only [Bool.false_eq_true, if_false] at herr ⊢
    split_ifs at herr ⊢ <;> simp_all
  rw [h]
  exact ⟨rfl, rfl, rfl, rfl⟩

/-- Witness: the stream-selection failure leaves a closed, empty channel. -/
theorem containerLogs_error_sync_witness :
    cfgNoStreams.messagesNil = false ∧
    (containerLogs cfgNoStreams envReady).errored = true ∧
    ((containerLogs cfgNoStreams envReady).goroutineStarted = false ∧
      (containerLogs cfgNoStreams envReady).messagesSent = 0 ∧
      (containerLogs cfgNoStreams envReady).channelClosed = true ∧
      (containerLogs cfgNoStreams envReady).panicked = false) :=
  ⟨by decide, by decide,
    containerLogs_error_sync cfgNoStreams envReady (by decide) (by decide)⟩

/-- Claim C5: when the writer meets the first terminal-error message it
writes exactly one system-error line and stops — the output is independent of
whatever is still queued after the terminal message. -/
theorem writeLogStream_stops_at_error (cfg : LogsConfig) (pre post : List LogMessage)
    (m : LogMessage) (e : Str) (hpre : ∀ x ∈ pre, x.err = none)
    (hm : m.err = some e) :
    writeLogStream cfg (pre ++ m :: post) =
      writeLogStream cfg pre ++ [(Lane.syserr, errLine e)] := by
  induction pre with
  | nil => simp [writeLogStream, hm]
  | cons a as ih =>
    have ha : a.err = none := hpre a (List.mem_cons_self a as)
    have ih' := ih (fun x hx => hpre x (List.mem_cons_of_mem a hx))
    simp [writeLogStream, ha, ih']

/-- Witness: one data message, then the terminal error, then a queued
message that is never read. -/
theorem writeLogStream_stops_at_error_witness :
    (∀ x ∈ [msgStdoutHi], x.err = none) ∧
    msgErrBoom.err = some (asciiBytes ("boom")) ∧
    writeLogStream cfgStdoutOnly ([msgStdoutHi] ++ msgErrBoom :: [msgStderrX]) =
      writeLogStream cfgStdoutOnly [msgStdoutHi] ++
        [(Lane.syserr, errLine (asciiBytes ("boom")))] :=
  ⟨by decide, by decide,
    writeLogStream_stops_at_error cfgStdoutOnly [msgStdoutHi] [msgStderrX]
      msgErrBoom (asciiBytes ("boom")) (by decide) (by decide)⟩

/-- Claim C7: with details and timestamps both configured, every lane write
the writer produces for a normal message carries the rendered timestamp, one
space, the attribute encoding, one space, then the raw payload — the
timestamp is prepended after the details, so it comes first. -/
theorem writer_timestamp_before_details (cfg : LogsConfig) (m : LogMessage)
    (p : Lane × Str) (hd : cfg.details = true) (ht : cfg.timestamps = true)
    (hm : m.err = none) (hp : p ∈ writeLogStream cfg [m]) :
    p.2 = m.timestamp ++ 32 :: (stringAttrs m.attrs ++ 32 :: m.line) := by
  have hfmt : formatLine cfg m =
      m.timestamp ++ 32 :: (stringAttrs m.attrs ++ 32 :: m.line) := by
    simp [formatLine, hd, ht]
  simp only [writeLogStream, hm] at hp
  rw [List.append_nil] at hp
  unfold routeWrites at hp
  rcases List.mem_append.mp hp with h | h <;> split at h <;> simp_all

/-- Witness: the annotated stdout message produces the lane write with the
timestamp-then-details order. -/
theorem writer_timestamp_before_details_witness :
    cfgAnnotated.details = true ∧ cfgAnnotated.timestamps = true ∧
    msgStdoutHi.err = none ∧
    (Lane.stdout, asciiBytes ("TS k=v hi")) ∈ writeLogStream cfgAnnotated [msgStdoutHi] ∧
    (Lane.stdout, asciiBytes ("TS k=v hi")).2 =
      msgStdoutHi.timestamp ++ 32 :: (stringAttrs msgStdoutHi.attrs ++ 32 :: msgStdoutHi.line) :=
  ⟨by decide, by decide, by decide, by decide,
    writer_timestamp_before_details cfgAnnotated msgStdoutHi _
      (by decide) (by decide) (by decide) (by decide)⟩

/-- Claim C8: an unparsable tail value yields the same -1 tail sentinel as
the "all" value, and the whole synchronous outcome of ContainerLogs —
including the ReadConfig handed to the log source — is identical for
tail="not-a-number" and tail="all", on every request and environment. -/
theorem tail_unparsable_behaves_as_all :
    tailLinesOf (asciiBytes ("not-a-number")) = -1 ∧
    tailLinesOf (asciiBytes ("all")) = -1 ∧
    ∀ (cfg : LogsConfig) (env : ContainerEnv),
      containerLogs { cfg with tail := asciiBytes ("not-a-number") } env =
      containerLogs { cfg with tail := asciiBytes ("all") } env := by
  refine ⟨by decide, by decide, fun cfg env => ?_⟩
  have h : tailLinesOf (asciiBytes ("not-a-number")) =
      tailLinesOf (asciiBytes ("all")) := by decide
  simp [containerLogs, h]

/-- Claim C9: with a nil Messages channel ContainerLogs returns an error, but
the deferred cleanup then closes a nil channel, which panics in Go — the
channel is not cleanly closed on this error path, whatever the container
environment. -/
theorem containerLogs_nil_channel_panics (env : ContainerEnv) :
    (containerLogs cfgNilChan env).errored = true ∧
    (containerLogs cfgNilChan env).panicked = true ∧
    (containerLogs cfgNilChan env).channelClosed = false ∧
    (containerLogs cfgNilChan env).messagesSent = 0 := by
  unfold containerLogs
  simp [cfgNilChan, cfgStdoutOnly]
